import Mathlib

/-!
Verification of the FramAT 3D frame-analysis core against its specification.

The Python source is shallowly embedded over exact rationals (`ℚ`):

* `stiffness_matrix_local`, `stiffness_matrix_glob`, `transformation_matrix`,
  `distributed_load_vector`, `add_point_load` embed `framat/_element.py` and
  `lib/framat/fem/element.py`;
* `fix_dof` and `connect` embed `lib/framat/fem/boundary_conditions.py`
  (textually identical to the nested `fix_dof` in `framat/_assembly.py` and
  to `framat/__old_boundary_conditions.py`);
* `static_load_analysis` embeds `framat/_solve.py`;
* `polygonal_chain` and the `AbstractBeamMesh` counters embed
  `framat/_meshing.py`.

NumPy's float matrices are modelled as exact rational matrices; `np.linalg.solve`
is modelled as multiplication by the inverse of a nonsingular matrix.
-/

open scoped Matrix

namespace Framat

/-- A 3-vector with rational coordinates (NumPy `array([x, y, z])`). -/
structure Vec3 where
  x : ℚ
  y : ℚ
  z : ℚ
deriving DecidableEq

/-- Componentwise difference of 3-vectors. -/
def Vec3.sub (a b : Vec3) : Vec3 := ⟨a.x - b.x, a.y - b.y, a.z - b.z⟩

/-- Componentwise sum of 3-vectors. -/
def Vec3.add (a b : Vec3) : Vec3 := ⟨a.x + b.x, a.y + b.y, a.z + b.z⟩

/-- Scalar multiple of a 3-vector. -/
def Vec3.smul (c : ℚ) (a : Vec3) : Vec3 := ⟨c * a.x, c * a.y, c * a.z⟩

/-- Dot product of 3-vectors. -/
def Vec3.dot (a b : Vec3) : ℚ := a.x * b.x + a.y * b.y + a.z * b.z

/-- The zero 3-vector. -/
def Vec3.zero : Vec3 := ⟨0, 0, 0⟩

/-- Upper-triangular entries assigned to `k_elem` in
`Element.stiffness_matrix_local` (`framat/_element.py`, lines 264-300; the
`lib` draft is identical).  All indices not assigned by the source are `0`,
matching `np.zeros((12, 12))`. -/
def kElemUpper (E G A Iy Iz J L : ℚ) (i j : ℕ) : ℚ :=
  if i = 0 ∧ j = 0 then E * A / L
  else if i = 0 ∧ j = 6 then -(E * A) / L
  else if i = 1 ∧ j = 1 then 12 * (E * Iz) / L ^ 3
  else if i = 1 ∧ j = 5 then 6 * (E * Iz) / L ^ 2
  else if i = 1 ∧ j = 7 then -12 * (E * Iz) / L ^ 3
  else if i = 1 ∧ j = 11 then 6 * (E * Iz) / L ^ 2
  else if i = 2 ∧ j = 2 then 12 * (E * Iy) / L ^ 3
  else if i = 2 ∧ j = 4 then -6 * (E * Iy) / L ^ 2
  else if i = 2 ∧ j = 8 then -12 * (E * Iy) / L ^ 3
  else if i = 2 ∧ j = 10 then -6 * (E * Iy) / L ^ 2
  else if i = 3 ∧ j = 3 then G * J / L
  else if i = 3 ∧ j = 9 then -(G * J) / L
  else if i = 4 ∧ j = 4 then 4 * (E * Iy) / L
  else if i = 4 ∧ j = 8 then 6 * (E * Iy) / L ^ 2
  else if i = 4 ∧ j = 10 then 2 * (E * Iy) / L
  else if i = 5 ∧ j = 5 then 4 * (E * Iz) / L
  else if i = 5 ∧ j = 7 then -6 * (E * Iz) / L ^ 2
  else if i = 5 ∧ j = 11 then 2 * (E * Iz) / L
  else if i = 6 ∧ j = 6 then E * A / L
  else if i = 7 ∧ j = 7 then 12 * (E * Iz) / L ^ 3
  else if i = 7 ∧ j = 11 then -6 * (E * Iz) / L ^ 2
  else if i = 8 ∧ j = 8 then 12 * (E * Iy) / L ^ 3
  else if i = 8 ∧ j = 10 then 6 * (E * Iy) / L ^ 2
  else if i = 9 ∧ j = 9 then G * J / L
  else if i = 10 ∧ j = 10 then 4 * (E * Iy) / L
  else if i = 11 ∧ j = 11 then 4 * (E * Iz) / L
  else 0

/-- `Element.stiffness_matrix_local`: the upper-triangular assignments followed
by `k_elem += np.triu(k_elem, k=1).T`, i.e. entry `(i, j)` becomes
`k[i, j] + (k[j, i] if j < i else 0)`. -/
def stiffness_matrix_local (E G A Iy Iz J L : ℚ) : Matrix (Fin 12) (Fin 12) ℚ :=
  Matrix.of fun i j =>
    kElemUpper E G A Iy Iz J L i.val j.val +
      (if j.val < i.val then kElemUpper E G A Iy Iz J L j.val i.val else 0)

/-- The index pairs of the non-zero upper-triangular entries listed by the
specification for the local stiffness matrix. -/
def stiffnessPattern : List (ℕ × ℕ) :=
  [(0, 0), (0, 6),
   (1, 1), (1, 5), (1, 7), (1, 11),
   (2, 2), (2, 4), (2, 8), (2, 10),
   (3, 3), (3, 9),
   (4, 4), (4, 8), (4, 10),
   (5, 5), (5, 7), (5, 11),
   (6, 6),
   (7, 7), (7, 11),
   (8, 8), (8, 10),
   (9, 9),
   (10, 10), (11, 11)]

/-- Modelled from the spec: `direction_cosine` comes from the external
`commonlibs.math.vectors` package (not in this repository); for the unit
vectors it is applied to here it is the plain dot product (the cosine of the
angle between two unit vectors). -/
def direction_cosine (a b : Vec3) : ℚ := Vec3.dot a b

/-- The global coordinate axes (`GlobalSystem.X/Y/Z` in `framat/_element.py`). -/
def globalX : Vec3 := ⟨1, 0, 0⟩

/-- `GlobalSystem.Y`. -/
def globalY : Vec3 := ⟨0, 1, 0⟩

/-- `GlobalSystem.Z`. -/
def globalZ : Vec3 := ⟨0, 0, 1⟩

/-- The 3×3 direction-cosine block `T3` built in `Element.__init__`
(`framat/_element.py`, lines 119-130): row 0 is the cosines of `x_elem`,
row 1 of `y_elem`, row 2 of `z_elem` against the global X, Y, Z axes, laid
out entry by entry as in the source's array literal. -/
def T3entry (xe ye ze : Vec3) (k l : ℕ) : ℚ :=
  if k = 0 ∧ l = 0 then direction_cosine xe globalX
  else if k = 0 ∧ l = 1 then direction_cosine xe globalY
  else if k = 0 ∧ l = 2 then direction_cosine xe globalZ
  else if k = 1 ∧ l = 0 then direction_cosine ye globalX
  else if k = 1 ∧ l = 1 then direction_cosine ye globalY
  else if k = 1 ∧ l = 2 then direction_cosine ye globalZ
  else if k = 2 ∧ l = 0 then direction_cosine ze globalX
  else if k = 2 ∧ l = 1 then direction_cosine ze globalY
  else if k = 2 ∧ l = 2 then direction_cosine ze globalZ
  else 0

/-- The 12×12 block-diagonal transformation matrix `self.T` of
`Element.__init__` (`framat/_element.py`, lines 131-132): four copies of `T3`
on the diagonal (blocks `0:3`, `3:6`, `6:9`, `9:12`), zero elsewhere. -/
def transformation_matrix (xe ye ze : Vec3) : Matrix (Fin 12) (Fin 12) ℚ :=
  Matrix.of fun i j =>
    if i.val / 3 = j.val / 3 then T3entry xe ye ze (i.val % 3) (j.val % 3) else 0

/-- `Element.stiffness_matrix_glob` (`framat/_element.py`, lines 389-395):
`k_glob = self.T.T @ k_elem @ self.T`. -/
def stiffness_matrix_glob (E G A Iy Iz J L : ℚ) (xe ye ze : Vec3) :
    Matrix (Fin 12) (Fin 12) ℚ :=
  (transformation_matrix xe ye ze)ᵀ * stiffness_matrix_local E G A Iy Iz J L *
    transformation_matrix xe ye ze

/-- `Element.distributed_load_vector` (`framat/_element.py`, lines 397-427 and
`lib/framat/fem/element.py`, lines 433-462): the equivalent nodal load vector
of a distributed load `[qx, qy, qz, mx, my, mz]`, assignment by assignment. -/
def distributed_load_vector (qx qy qz mx my mz L : ℚ) (k : Fin 12) : ℚ :=
  if k.val = 0 then qx * L / 2
  else if k.val = 1 then qy * L / 2 - mz
  else if k.val = 2 then qz * L / 2 + my
  else if k.val = 3 then mx * L / 2
  else if k.val = 4 then -qz * L ^ 2 / 12
  else if k.val = 5 then qy * L ^ 2 / 12
  else if k.val = 6 then qx * L / 2
  else if k.val = 7 then qy * L / 2 + mz
  else if k.val = 8 then qz * L / 2 - my
  else if k.val = 9 then mx * L / 2
  else if k.val = 10 then qz * L ^ 2 / 12
  else -qy * L ^ 2 / 12

/-- `Element.distributed_load_vector_glob` (`lib/framat/fem/element.py`, lines
464-474): if the distributed loads were given in the local system the local
vector is pre-multiplied by `T.T`, otherwise it is returned unchanged. -/
def distributed_load_vector_glob (xe ye ze : Vec3) (loc_sys : Bool)
    (qx qy qz mx my mz L : ℚ) : Fin 12 → ℚ :=
  let f := distributed_load_vector qx qy qz mx my mz L
  if loc_sys then (transformation_matrix xe ye ze)ᵀ.mulVec f else f

/-- `Element.add_point_load` (`framat/_element.py`, lines 148-169): the
contribution added to `load_vector_glob` by one point load.  The load goes
into slots 0-5 when `node_num == 1` and into slots 6-11 otherwise; if
`loc_system` is set the contribution is pre-multiplied by `self.T`. -/
def add_point_load (xe ye ze : Vec3) (load : Fin 6 → ℚ) (node_num : ℕ)
    (loc_system : Bool) : Fin 12 → ℚ :=
  let load_contrib : Fin 12 → ℚ := fun i =>
    if node_num = 1 then (if h : i.val < 6 then load ⟨i.val, h⟩ else 0)
    else (if h : 6 ≤ i.val then load ⟨i.val - 6, by omega⟩ else 0)
  if loc_system then (transformation_matrix xe ye ze).mulVec load_contrib
  else load_contrib

/-- The boolean-valued keys of the dict built for a model point load by
`create_mesh` (`framat/_meshing.py`, line 77): the literal entry
`'local_sys': False` is stored, and the model's own `local_sys` flag `pdef`
carries is not read at all. -/
def create_mesh_point_load_flags (_model_local_sys : Bool) : List (String × Bool) :=
  [("local_sys", false)]

/-- `Element.from_abstract_element` (`framat/_element.py`, lines 134-146)
feeding one point-load entry into `add_point_load`: the flag passed is
`pl.get('loc_system', False)`, i.e. the lookup of the key `"loc_system"` in
the entry's flag dict with default `False`. -/
def from_abstract_element_point_load (xe ye ze : Vec3) (load : Fin 6 → ℚ)
    (node_num : ℕ) (flags : List (String × Bool)) : Fin 12 → ℚ :=
  add_point_load xe ye ze load node_num ((flags.lookup "loc_system").getD false)

/-- The composed pipeline for one model point load: `create_mesh` builds the
entry dict (`framat/_meshing.py`, lines 74-77) and `from_abstract_element`
turns it into the element's load contribution. -/
def point_load_contribution (xe ye ze : Vec3) (load : Fin 6 → ℚ) (node_num : ℕ)
    (model_local_sys : Bool) : Fin 12 → ℚ :=
  from_abstract_element_point_load xe ye ze load node_num
    (create_mesh_point_load_flags model_local_sys)

/-- The `pos_dict` of `fix_dof` (`lib/framat/fem/boundary_conditions.py`,
line 45, and identically `framat/_assembly.py`, line 194): only the symbols
`ux, uy, uz, tx, ty, tz` have a column offset; any other symbol raises
`KeyError` (modelled as `none`). -/
def pos_dict (s : String) : Option ℕ :=
  if s = "ux" then some 0
  else if s = "uy" then some 1
  else if s = "uz" then some 2
  else if s = "tx" then some 3
  else if s = "ty" then some 4
  else if s = "tz" then some 5
  else none

/-- One row of the constraint matrix `B` emitted by `fix_dof`: a single `1`
at column `6 * node_number + pos`, zeros elsewhere (row width `total_ndof`). -/
def bcRow (node_number total_ndof pos : ℕ) : List ℚ :=
  (List.range total_ndof).map fun j => if j = 6 * node_number + pos then 1 else 0

/-- The six rows `fix_dof` emits for the symbol `'all'`: a 6×6 identity block
at the node's DOF columns inside a 6×`total_ndof` zero matrix. -/
def bcAllBlock (node_number total_ndof : ℕ) : List (List ℚ) :=
  (List.range 6).map fun k => bcRow node_number total_ndof k

/-- The loop of `fix_dof` (`lib/framat/fem/boundary_conditions.py`, lines
47-57): rows accumulate via `np.vstack`; on `'all'` the accumulator is
replaced by the identity block and the loop breaks; an unknown symbol raises
`KeyError` (modelled as `Except.error ()`). -/
def fix_dof_loop (node_number total_ndof : ℕ) :
    List String → List (List ℚ) → Except Unit (List (List ℚ))
  | [], B => .ok B
  | c :: rest, B =>
    if c = "all" then .ok (bcAllBlock node_number total_ndof)
    else
      match pos_dict c with
      | none => .error ()
      | some pos => fix_dof_loop node_number total_ndof rest (B ++ [bcRow node_number total_ndof pos])

/-- `fix_dof` (`lib/framat/fem/boundary_conditions.py`, lines 30-59): the
part of the constraint matrix `B` for fixed degrees of freedom, starting from
an empty array. -/
def fix_dof (node_number total_ndof : ℕ) (dof_constraints : List String) :
    Except Unit (List (List ℚ)) :=
  fix_dof_loop node_number total_ndof dof_constraints []

/-- The block `N2` of `connect` (`lib/framat/fem/boundary_conditions.py`,
lines 78-92): `-np.eye(6)` with six off-diagonal entries overwritten from
`(dx, dy, dz) = x1 - x2`. -/
def connectN2 (d : Vec3) (k l : ℕ) : ℚ :=
  if k = 0 ∧ l = 4 then -d.z
  else if k = 0 ∧ l = 5 then d.y
  else if k = 1 ∧ l = 3 then d.z
  else if k = 1 ∧ l = 5 then -d.x
  else if k = 2 ∧ l = 3 then -d.y
  else if k = 2 ∧ l = 4 then d.x
  else if k = l then -1
  else 0

/-- `connect` (`lib/framat/fem/boundary_conditions.py`, lines 62-97): the
6×`total_ndof` block `B` with `N1 = eye(6)` pasted at node 1's DOF columns and
`N2` pasted at node 2's DOF columns.  The `N2` paste happens second in the
source, so on overlapping column ranges it wins; entry `(i, j)` of the result
is therefore tested against node 2's block first. -/
def connectB (node1_number node2_number : ℕ) (x1 x2 : Vec3) (total_ndof : ℕ)
    (i j : ℕ) : ℚ :=
  if j < total_ndof then
    if 6 * node2_number ≤ j ∧ j < 6 * node2_number + 6 then
      connectN2 (Vec3.sub x1 x2) i (j - 6 * node2_number)
    else if 6 * node1_number ≤ j ∧ j < 6 * node1_number + 6 then
      (if i = j - 6 * node1_number then 1 else 0)
    else 0
  else 0

/-- The block `N_B` as the specification describes it: `-I₆` modified by the
six listed off-diagonal moment-arm entries for `Δ = x₁ - x₂ = (dx, dy, dz)`. -/
def specNB (dx dy dz : ℚ) (k l : ℕ) : ℚ :=
  (if k = l then -1 else 0) +
    (if k = 0 ∧ l = 4 then -dz
     else if k = 0 ∧ l = 5 then dy
     else if k = 1 ∧ l = 3 then dz
     else if k = 1 ∧ l = 5 then -dx
     else if k = 2 ∧ l = 3 then -dy
     else if k = 2 ∧ l = 4 then dx
     else 0)

/-- A computable matrix inverse over `ℚ`: `det⁻¹ • adjugate`.  It agrees with
Mathlib's `Matrix.inv` (see `matInvQ_eq_inv` below) and models the exact
inverse `np.linalg.solve` applies to a nonsingular system. -/
def matInvQ {k : Type} [Fintype k] [DecidableEq k] (A : Matrix k k ℚ) :
    Matrix k k ℚ :=
  A.det⁻¹ • A.adjugate

/-- `static_load_analysis` (`framat/_solve.py`, lines 61-96): assemble the
saddle-point system `[[K, B.T], [B, 0]]` with right-hand side `[F; b]`,
`b = np.zeros((B.shape[0], 1))`, solve it (`np.linalg.solve`, modelled as
multiplication by the inverse), and split the solution into the displacements
`U = solution[0:ndof]` and the reactions `F_react = solution[ndof:]`. -/
def static_load_analysis {n m : ℕ} (K : Matrix (Fin n) (Fin n) ℚ)
    (B : Matrix (Fin m) (Fin n) ℚ) (F : Fin n → ℚ) :
    (Fin n → ℚ) × (Fin m → ℚ) :=
  let A_system := Matrix.fromBlocks K Bᵀ B (0 : Matrix (Fin m) (Fin m) ℚ)
  let x_system : Fin n ⊕ Fin m → ℚ := Sum.elim F (fun _ => 0)
  let solution := (matInvQ A_system).mulVec x_system
  (fun i => solution (Sum.inl i), fun j => solution (Sum.inr j))

/-- A mesh point (`Point` in `framat/_meshing.py`): coordinates, the relative
coordinate along its segment or chain, and an optional UID. -/
structure MPoint where
  coord : Vec3
  rel_coord : ℚ
  uid : Option String
deriving DecidableEq

/-- A line segment between two support points (`LineSegment` in
`framat/_meshing.py`): the endpoints get relative coordinates 0 and 1. -/
structure Seg where
  p1 : MPoint
  p2 : MPoint
deriving DecidableEq

/-- `LineSegment.dir = p2.coord - p1.coord`. -/
def segDir (s : Seg) : Vec3 := Vec3.sub s.p2.coord s.p1.coord

/-- Build the `LineSegment` between two consecutive support points: the
endpoints carry their UIDs and the relative coordinates 0 and 1. -/
def mkSeg (a b : String × Vec3) : Seg :=
  ⟨⟨a.2, 0, some a.1⟩, ⟨b.2, 1, some b.1⟩⟩

/-- The segments of a polygonal chain: one per consecutive pair of support
points (`pairwise` over the point list in `PolygonalChain.__init__`,
`framat/_meshing.py`, lines 190-199). -/
def chainSegs : List (String × Vec3) → List Seg
  | a :: b :: rest => mkSeg a b :: chainSegs (b :: rest)
  | _ => []

/-- `LineSegment.split_into(n)` (`framat/_meshing.py`, lines 140-158) for
`n > 0`: the start point, `n - 1` interior points at relative coordinates
`i / n` carrying no UID, and the end point. -/
def splitIntoPoints (s : Seg) (n : ℕ) : List MPoint :=
  s.p1 ::
    ((List.range (n - 1)).map fun k =>
      let rc : ℚ := (k + 1 : ℕ) / (n : ℚ)
      ⟨Vec3.add s.p1.coord (Vec3.smul rc (segDir s)), rc, none⟩)
    ++ [s.p2]

/-- Failure modes of the mesher.  `zeroSegment` models the failure of
`PolygonalChain.set_node_num` on a segment that receives `n_seg = 0` elements
(the `assert n > 0` in `split_into`; when the whole chain has length zero the
same line fails with `ceil(nan)` instead).  `insufficientSupport` models the
`IndexError` of `iter_points` (`self.segments[-1]`) when fewer than two
support points produced no segment at all. -/
inductive MeshError where
  | insufficientSupport
  | zeroSegment
deriving DecidableEq

/-- `PolygonalChain.set_node_num` (`framat/_meshing.py`, lines 211-214): each
segment is split into `n_seg = ceil(n * seg.len / chain.len)` elements.  The
norm is passed in as `len` (NumPy's `np.linalg.norm` lives outside this
repository). -/
def chainSplit (len : Vec3 → ℚ) (n : ℕ) (total : ℚ) :
    List Seg → Except MeshError (List (Seg × List MPoint))
  | [] => .ok []
  | s :: rest =>
    let n_seg : ℕ := (⌈(n : ℚ) * (len (segDir s) / total)⌉).toNat
    if n_seg = 0 then .error .zeroSegment
    else
      match chainSplit len n total rest with
      | .error e => .error e
      | .ok tail => .ok ((s, splitIntoPoints s n_seg) :: tail)

/-- Re-coordinate one segment's points to chain-global relative coordinates
(`eta_poly = curr_len/chain.len + p.rel_coord * seg.len/chain.len`). -/
def etaPoints (len : Vec3 → ℚ) (total curr_len : ℚ) (s : Seg) (pts : List MPoint) :
    List MPoint :=
  pts.map fun p =>
    ⟨p.coord, curr_len / total + p.rel_coord * (len (segDir s) / total), p.uid⟩

/-- `PolygonalChain.iter_points` (`framat/_meshing.py`, lines 216-229): all
segments but the last contribute their points without the segment's last
point; the last segment contributes all of its points.  On an empty segment
list the source hits `self.segments[-1]` and fails (`IndexError`). -/
def chainIterPoints (len : Vec3 → ℚ) (total : ℚ) :
    ℚ → List (Seg × List MPoint) → Except MeshError (List MPoint)
  | _, [] => .error .insufficientSupport
  | curr_len, (s, pts) :: rest =>
    match rest with
    | [] => .ok (etaPoints len total curr_len s pts)
    | _ :: _ =>
      match chainIterPoints len total (curr_len + len (segDir s)) rest with
      | .error e => .error e
      | .ok tail => .ok (etaPoints len total curr_len s pts.dropLast ++ tail)

/-- The chain length `self.len` accumulated by `PolygonalChain.add_segment`:
the sum of the segment lengths. -/
def chainTotal (len : Vec3 → ℚ) (sup_points : List (String × Vec3)) : ℚ :=
  ((chainSegs sup_points).map fun s => len (segDir s)).sum

/-- The polyline mesher (`PolygonalChain` construction followed by
`iter_points`, as used by `AbstractBeamMesh.add_beam_line`,
`framat/_meshing.py`, lines 166-229 and 313-314): from the ordered support
points and the requested element count `n` to the ordered mesh points. -/
def polygonal_chain (len : Vec3 → ℚ) (sup_points : List (String × Vec3))
    (n : ℕ) : Except MeshError (List MPoint) :=
  match chainSplit len n (chainTotal len sup_points) (chainSegs sup_points) with
  | .error e => .error e
  | .ok splits => chainIterPoints len (chainTotal len sup_points) 0 splits

/-- The 1-norm on `Vec3`, a concrete vector norm used to instantiate the
mesher's `len` parameter in witnesses. -/
def norm1 (v : Vec3) : ℚ := |v.x| + |v.y| + |v.z|

/-- `AbstractBeamMesh.nelem_beam` (`framat/_meshing.py`, lines 374-376): the
number of elements of beam `i`.  The mesh's beam table is modelled as a list
of per-beam element lists. -/
def nelem_beam (beams : List (List α)) (i : ℕ) : ℕ := (beams.getD i []).length

/-- `AbstractBeamMesh.nnodes_beam`: `nelem_beam + 1`. -/
def nnodes_beam (beams : List (List α)) (i : ℕ) : ℕ := nelem_beam beams i + 1

/-- `AbstractBeamMesh.ndofs_beam` with the default `ndof_per_node = 6`. -/
def ndofs_beam (beams : List (List α)) (i : ℕ) : ℕ := nnodes_beam beams i * 6

/-- `AbstractBeamMesh.nnodes` (`framat/_meshing.py`, lines 396-399): the sum
over beams of (number of elements + 1). -/
def mesh_nnodes (beams : List (List α)) : ℕ :=
  (beams.map fun b => b.length + 1).sum

/-- `AbstractBeamMesh.ndofs` with the default `ndof_per_node = 6`. -/
def mesh_ndofs (beams : List (List α)) : ℕ := mesh_nnodes beams * 6

/-! ## Properties of the local stiffness matrix -/

theorem kElemUpper_lower_zero (E G A Iy Iz J L : ℚ) (i j : Fin 12) (h : j.val < i.val) :
    kElemUpper E G A Iy Iz J L i.val j.val = 0 := by
  fin_cases i <;> fin_cases j <;> first | rfl | exact absurd h (by decide)

theorem stiffness_local_symm_apply (E G A Iy Iz J L : ℚ) (i j : Fin 12) :
    stiffness_matrix_local E G A Iy Iz J L j i = stiffness_matrix_local E G A Iy Iz J L i j := by
  unfold stiffness_matrix_local
  simp only [Matrix.of_apply]
  rcases lt_trichotomy i.val j.val with h | h | h
  · rw [if_pos h, if_neg (by omega), kElemUpper_lower_zero E G A Iy Iz J L j i h]
    ring
  · have hij : i = j := Fin.ext h
    subst hij
    rfl
  · rw [if_neg (by omega), if_pos h, kElemUpper_lower_zero E G A Iy Iz J L i j h]
    ring

theorem stiffness_local_transpose (E G A Iy Iz J L : ℚ) :
    (stiffness_matrix_local E G A Iy Iz J L)ᵀ = stiffness_matrix_local E G A Iy Iz J L :=
  Matrix.ext fun i j => stiffness_local_symm_apply E G A Iy Iz J L i j

theorem stiffness_local_off_pattern (E G A Iy Iz J L : ℚ) (i j : Fin 12)
    (hle : i.val ≤ j.val) (hp : (i.val, j.val) ∉ stiffnessPattern) :
    stiffness_matrix_local E G A Iy Iz J L i j = 0 := by
  fin_cases i <;> fin_cases j <;>
    first
      | exact absurd hle (by decide)
      | exact absurd (by decide) hp
      | exact add_zero 0

set_option maxHeartbeats 2000000 in
theorem stiffness_local_on_pattern (E G A Iy Iz J L : ℚ)
    (hE : 0 < E) (hG : 0 < G) (hA : 0 < A) (hIy : 0 < Iy) (hIz : 0 < Iz)
    (hJ : 0 < J) (hL : 0 < L) (i j : Fin 12)
    (hp : (i.val, j.val) ∈ stiffnessPattern) :
    stiffness_matrix_local E G A Iy Iz J L i j ≠ 0 := by
  fin_cases i <;> fin_cases j <;>
    first
      | exact absurd hp (by decide)
      | (simp only [stiffness_matrix_local, Matrix.of_apply, kElemUpper]
         norm_num <;> (repeat' apply And.intro) <;> positivity)

/-- **C2.** For positive `E, G, A, Iy, Iz, J` and length `L > 0` the local
stiffness matrix is symmetric, its upper-triangular entries are exactly the
closed forms listed by the specification (zero at every upper-triangular index
pair outside the listed pattern, non-zero at every listed pair), and the lower
triangle follows by symmetry. -/
theorem stiffness_matrix_local_matches_spec (E G A Iy Iz J L : ℚ)
    (hE : 0 < E) (hG : 0 < G) (hA : 0 < A) (hIy : 0 < Iy) (hIz : 0 < Iz)
    (hJ : 0 < J) (hL : 0 < L) :
    (∀ i j : Fin 12, stiffness_matrix_local E G A Iy Iz J L j i
        = stiffness_matrix_local E G A Iy Iz J L i j)
    ∧ (stiffness_matrix_local E G A Iy Iz J L 0 0 = E * A / L
      ∧ stiffness_matrix_local E G A Iy Iz J L 0 6 = -(E * A) / L
      ∧ stiffness_matrix_local E G A Iy Iz J L 1 1 = 12 * (E * Iz) / L ^ 3
      ∧ stiffness_matrix_local E G A Iy Iz J L 1 5 = 6 * (E * Iz) / L ^ 2
      ∧ stiffness_matrix_local E G A Iy Iz J L 1 7 = -12 * (E * Iz) / L ^ 3
      ∧ stiffness_matrix_local E G A Iy Iz J L 1 11 = 6 * (E * Iz) / L ^ 2
      ∧ stiffness_matrix_local E G A Iy Iz J L 2 2 = 12 * (E * Iy) / L ^ 3
      ∧ stiffness_matrix_local E G A Iy Iz J L 2 4 = -6 * (E * Iy) / L ^ 2
      ∧ stiffness_matrix_local E G A Iy Iz J L 2 8 = -12 * (E * Iy) / L ^ 3
      ∧ stiffness_matrix_local E G A Iy Iz J L 2 10 = -6 * (E * Iy) / L ^ 2
      ∧ stiffness_matrix_local E G A Iy Iz J L 3 3 = G * J / L
      ∧ stiffness_matrix_local E G A Iy Iz J L 3 9 = -(G * J) / L
      ∧ stiffness_matrix_local E G A Iy Iz J L 4 4 = 4 * (E * Iy) / L
      ∧ stiffness_matrix_local E G A Iy Iz J L 4 8 = 6 * (E * Iy) / L ^ 2
      ∧ stiffness_matrix_local E G A Iy Iz J L 4 10 = 2 * (E * Iy) / L
      ∧ stiffness_matrix_local E G A Iy Iz J L 5 5 = 4 * (E * Iz) / L
      ∧ stiffness_matrix_local E G A Iy Iz J L 5 7 = -6 * (E * Iz) / L ^ 2
      ∧ stiffness_matrix_local E G A Iy Iz J L 5 11 = 2 * (E * Iz) / L
      ∧ stiffness_matrix_local E G A Iy Iz J L 6 6 = E * A / L
      ∧ stiffness_matrix_local E G A Iy Iz J L 7 7 = 12 * (E * Iz) / L ^ 3
      ∧ stiffness_matrix_local E G A Iy Iz J L 7 11 = -6 * (E * Iz) / L ^ 2
      ∧ stiffness_matrix_local E G A Iy Iz J L 8 8 = 12 * (E * Iy) / L ^ 3
      ∧ stiffness_matrix_local E G A Iy Iz J L 8 10 = 6 * (E * Iy) / L ^ 2
      ∧ stiffness_matrix_local E G A Iy Iz J L 9 9 = G * J / L
      ∧ stiffness_matrix_local E G A Iy Iz J L 10 10 = 4 * (E * Iy) / L
      ∧ stiffness_matrix_local E G A Iy Iz J L 11 11 = 4 * (E * Iz) / L)
    ∧ (∀ i j : Fin 12, i.val ≤ j.val → (i.val, j.val) ∉ stiffnessPattern →
        stiffness_matrix_local E G A Iy Iz J L i j = 0)
    ∧ (∀ i j : Fin 12, (i.val, j.val) ∈ stiffnessPattern →
        stiffness_matrix_local E G A Iy Iz J L i j ≠ 0) := by
  refine ⟨stiffness_local_symm_apply E G A Iy Iz J L, ?_, ?_, ?_⟩
  · exact ⟨add_zero _, add_zero _, add_zero _, add_zero _, add_zero _, add_zero _,
      add_zero _, add_zero _, add_zero _, add_zero _, add_zero _, add_zero _,
      add_zero _, add_zero _, add_zero _, add_zero _, add_zero _, add_zero _,
      add_zero _, add_zero _, add_zero _, add_zero _, add_zero _, add_zero _,
      add_zero _, add_zero _⟩
  · exact stiffness_local_off_pattern E G A Iy Iz J L
  · exact stiffness_local_on_pattern E G A Iy Iz J L hE hG hA hIy hIz hJ hL

/-- Witness for C2 at `E = 1, G = 2, A = 3, Iy = 5, Iz = 7, J = 11, L = 2`. -/
theorem stiffness_matrix_local_matches_spec_witness :
    stiffness_matrix_local 1 2 3 5 7 11 2 0 0 = 1 * 3 / 2
    ∧ stiffness_matrix_local 1 2 3 5 7 11 2 1 7 = -12 * (1 * 7) / 2 ^ 3
    ∧ stiffness_matrix_local 1 2 3 5 7 11 2 3 9 ≠ 0
    ∧ stiffness_matrix_local 1 2 3 5 7 11 2 ⟨0, by omega⟩ ⟨1, by omega⟩ = 0 :=
  have h := stiffness_matrix_local_matches_spec 1 2 3 5 7 11 2 (by norm_num)
    (by norm_num) (by norm_num) (by norm_num) (by norm_num) (by norm_num) (by norm_num)
  ⟨h.2.1.1, h.2.1.2.2.2.2.1,
    h.2.2.2 3 9 (by decide),
    h.2.2.1 ⟨0, by omega⟩ ⟨1, by omega⟩ (by decide) (by decide)⟩

/-! ## The element transformation and the global stiffness matrix -/

set_option maxHeartbeats 4000000 in
/-- **C3 (counterexample).** For the unit-property element with local axes
`x = (0,1,0)`, `y = (-1,0,0)`, `z = (0,0,1)` (the element from `(0,0,0)` to
`(0,1,0)` with `up = (0,0,1)`), the global stiffness matrix produced by the
code is *not* `T · K_loc · Tᵀ`: the two sides differ at entry `(0, 5)`. -/
theorem stiffness_matrix_glob_claim_counterex :
    ¬ (stiffness_matrix_glob 1 1 1 1 1 1 1 ⟨0, 1, 0⟩ ⟨-1, 0, 0⟩ ⟨0, 0, 1⟩
      = transformation_matrix ⟨0, 1, 0⟩ ⟨-1, 0, 0⟩ ⟨0, 0, 1⟩
          * stiffness_matrix_local 1 1 1 1 1 1 1
          * (transformation_matrix ⟨0, 1, 0⟩ ⟨-1, 0, 0⟩ ⟨0, 0, 1⟩)ᵀ) := by
  intro h
  have hcode : stiffness_matrix_glob 1 1 1 1 1 1 1 ⟨0, 1, 0⟩ ⟨-1, 0, 0⟩ ⟨0, 0, 1⟩
      ⟨0, by omega⟩ ⟨5, by omega⟩ = -6 := by
    norm_num [stiffness_matrix_glob, Matrix.mul_apply, Matrix.transpose_apply,
      Fin.sum_univ_succ, transformation_matrix, T3entry, stiffness_matrix_local,
      kElemUpper, direction_cosine, Vec3.dot, globalX, globalY, globalZ]
  have hclaim : (transformation_matrix ⟨0, 1, 0⟩ ⟨-1, 0, 0⟩ ⟨0, 0, 1⟩
      * stiffness_matrix_local 1 1 1 1 1 1 1
      * (transformation_matrix ⟨0, 1, 0⟩ ⟨-1, 0, 0⟩ ⟨0, 0, 1⟩)ᵀ)
      ⟨0, by omega⟩ ⟨5, by omega⟩ = 6 := by
    norm_num [Matrix.mul_apply, Matrix.transpose_apply,
      Fin.sum_univ_succ, transformation_matrix, T3entry, stiffness_matrix_local,
      kElemUpper, direction_cosine, Vec3.dot, globalX, globalY, globalZ]
  rw [h, hclaim] at hcode
  exact absurd hcode (by norm_num)

/-- **C3 (amended).** For every element the code computes the global stiffness
matrix as `Tᵀ · K_loc · T` (not `T · K_loc · Tᵀ`); moreover `K_loc` is
symmetric and consequently so is the global matrix. -/
theorem stiffness_matrix_glob_transform (E G A Iy Iz J L : ℚ) (xe ye ze : Vec3) :
    stiffness_matrix_glob E G A Iy Iz J L xe ye ze
      = (transformation_matrix xe ye ze)ᵀ * stiffness_matrix_local E G A Iy Iz J L
          * transformation_matrix xe ye ze
    ∧ (stiffness_matrix_local E G A Iy Iz J L)ᵀ = stiffness_matrix_local E G A Iy Iz J L
    ∧ (stiffness_matrix_glob E G A Iy Iz J L xe ye ze)ᵀ
        = stiffness_matrix_glob E G A Iy Iz J L xe ye ze := by
  refine ⟨rfl, stiffness_local_transpose E G A Iy Iz J L, ?_⟩
  unfold stiffness_matrix_glob
  rw [Matrix.transpose_mul, Matrix.transpose_mul, Matrix.transpose_transpose,
    stiffness_local_transpose, Matrix.mul_assoc]

/-! ## Element load vectors -/

/-- **C4 (counterexample).** For the rotated element with local axes
`x = (0,1,0)`, `y = (-1,0,0)`, `z = (0,0,1)`, a distributed load `qx = 1`
(`L = 1`) with `local_sys` set, the code's global distributed load vector is
*not* `T` applied to the local vector: they differ at slot 1 (`1/2` vs
`-1/2`), because the source multiplies by `T.T`. -/
theorem distributed_load_vector_glob_claim_counterex :
    ¬ (distributed_load_vector_glob ⟨0, 1, 0⟩ ⟨-1, 0, 0⟩ ⟨0, 0, 1⟩ true 1 0 0 0 0 0 1
      = (transformation_matrix ⟨0, 1, 0⟩ ⟨-1, 0, 0⟩ ⟨0, 0, 1⟩).mulVec
          (distributed_load_vector 1 0 0 0 0 0 1)) := by
  intro h
  have hcode : distributed_load_vector_glob ⟨0, 1, 0⟩ ⟨-1, 0, 0⟩ ⟨0, 0, 1⟩ true
      1 0 0 0 0 0 1 ⟨1, by omega⟩ = 1 / 2 := by
    norm_num [distributed_load_vector_glob, distributed_load_vector,
      Matrix.mulVec, Matrix.dotProduct, Fin.sum_univ_succ, Matrix.transpose_apply,
      transformation_matrix, T3entry, direction_cosine, Vec3.dot,
      globalX, globalY, globalZ]
  have hclaim : (transformation_matrix ⟨0, 1, 0⟩ ⟨-1, 0, 0⟩ ⟨0, 0, 1⟩).mulVec
      (distributed_load_vector 1 0 0 0 0 0 1) ⟨1, by omega⟩ = -(1 / 2) := by
    norm_num [distributed_load_vector,
      Matrix.mulVec, Matrix.dotProduct, Fin.sum_univ_succ,
      transformation_matrix, T3entry, direction_cosine, Vec3.dot,
      globalX, globalY, globalZ]
  rw [h] at hcode
  rw [hclaim] at hcode
  exact absurd hcode (by norm_num)

/-- **C4 (amended).** For every element carrying a distributed load
`[qx, qy, qz, mx, my, mz]`, the local equivalent nodal vector has exactly the
entries the specification lists; when the load's `local_sys` flag is set the
global vector is this vector pre-multiplied by `Tᵀ` (not `T`), and when the
flag is clear it is the local vector unmodified. -/
theorem distributed_load_vector_glob_spec (xe ye ze : Vec3) (loc_sys : Bool)
    (qx qy qz mx my mz L : ℚ) :
    (distributed_load_vector qx qy qz mx my mz L ⟨0, by omega⟩ = qx * L / 2
      ∧ distributed_load_vector qx qy qz mx my mz L ⟨1, by omega⟩ = qy * L / 2 - mz
      ∧ distributed_load_vector qx qy qz mx my mz L ⟨2, by omega⟩ = qz * L / 2 + my
      ∧ distributed_load_vector qx qy qz mx my mz L ⟨3, by omega⟩ = mx * L / 2
      ∧ distributed_load_vector qx qy qz mx my mz L ⟨4, by omega⟩ = -qz * L ^ 2 / 12
      ∧ distributed_load_vector qx qy qz mx my mz L ⟨5, by omega⟩ = qy * L ^ 2 / 12
      ∧ distributed_load_vector qx qy qz mx my mz L ⟨6, by omega⟩ = qx * L / 2
      ∧ distributed_load_vector qx qy qz mx my mz L ⟨7, by omega⟩ = qy * L / 2 + mz
      ∧ distributed_load_vector qx qy qz mx my mz L ⟨8, by omega⟩ = qz * L / 2 - my
      ∧ distributed_load_vector qx qy qz mx my mz L ⟨9, by omega⟩ = mx * L / 2
      ∧ distributed_load_vector qx qy qz mx my mz L ⟨10, by omega⟩ = qz * L ^ 2 / 12
      ∧ distributed_load_vector qx qy qz mx my mz L ⟨11, by omega⟩ = -qy * L ^ 2 / 12)
    ∧ distributed_load_vector_glob xe ye ze loc_sys qx qy qz mx my mz L
        = (if loc_sys then
            (transformation_matrix xe ye ze)ᵀ.mulVec
              (distributed_load_vector qx qy qz mx my mz L)
          else distributed_load_vector qx qy qz mx my mz L) :=
  ⟨⟨rfl, rfl, rfl, rfl, rfl, rfl, rfl, rfl, rfl, rfl, rfl, rfl⟩, rfl⟩

/-- **C5 (code bug).** The insertion of a nodal point load into slots 0-5
(endpoint 1) or 6-11 (endpoint 2) works as specified, but the model's
`local_sys` flag is dropped on the way to the element: `create_mesh` stores
the literal `'local_sys': False` and `from_abstract_element` reads the
misspelled key `'loc_system'`.  At the failing input — the rotated element
with axes `x = (0,1,0)`, `y = (-1,0,0)`, `z = (0,0,1)` and the point load
`[1,0,0,0,0,0]` at endpoint 1 with `local_sys = true` — the pipeline yields
the unrotated insertion, which differs from the `T`-premultiplied insertion
the claim requires at slot 1. -/
theorem point_load_local_sys_dropped :
    (∀ (xe ye ze : Vec3) (load : Fin 6 → ℚ) (k : Fin 6),
      add_point_load xe ye ze load 1 false ⟨k.val, by omega⟩ = load k
      ∧ add_point_load xe ye ze load 2 false ⟨k.val + 6, by omega⟩ = load k)
    ∧ point_load_contribution ⟨0, 1, 0⟩ ⟨-1, 0, 0⟩ ⟨0, 0, 1⟩
        (fun k => if k.val = 0 then 1 else 0) 1 true
      = add_point_load ⟨0, 1, 0⟩ ⟨-1, 0, 0⟩ ⟨0, 0, 1⟩
          (fun k => if k.val = 0 then 1 else 0) 1 false
    ∧ ¬ (point_load_contribution ⟨0, 1, 0⟩ ⟨-1, 0, 0⟩ ⟨0, 0, 1⟩
        (fun k => if k.val = 0 then 1 else 0) 1 true
      = (transformation_matrix ⟨0, 1, 0⟩ ⟨-1, 0, 0⟩ ⟨0, 0, 1⟩).mulVec
          (add_point_load ⟨0, 1, 0⟩ ⟨-1, 0, 0⟩ ⟨0, 0, 1⟩
            (fun k => if k.val = 0 then 1 else 0) 1 false)) := by
  refine ⟨?_, rfl, ?_⟩
  · intro xe ye ze load k
    constructor
    · show (if h : k.val < 6 then load ⟨k.val, h⟩ else 0) = load k
      rw [dif_pos k.isLt]
    · show (if h : 6 ≤ k.val + 6 then load ⟨k.val + 6 - 6, by omega⟩ else 0) = load k
      rw [dif_pos (by omega)]
      exact congrArg load (Fin.ext (show k.val + 6 - 6 = k.val by omega))
  · intro h
    have hcode : point_load_contribution ⟨0, 1, 0⟩ ⟨-1, 0, 0⟩ ⟨0, 0, 1⟩
        (fun k => if k.val = 0 then 1 else 0) 1 true ⟨1, by omega⟩ = 0 := rfl
    have hclaim : (transformation_matrix ⟨0, 1, 0⟩ ⟨-1, 0, 0⟩ ⟨0, 0, 1⟩).mulVec
        (add_point_load ⟨0, 1, 0⟩ ⟨-1, 0, 0⟩ ⟨0, 0, 1⟩
          (fun k => if k.val = 0 then 1 else 0) 1 false) ⟨1, by omega⟩ = -1 := by
      norm_num [add_point_load, Matrix.mulVec, Matrix.dotProduct, Fin.sum_univ_succ,
        transformation_matrix, T3entry, direction_cosine, Vec3.dot,
        globalX, globalY, globalZ]
    rw [h] at hcode
    rw [hclaim] at hcode
    exact absurd hcode (by norm_num)

/-! ## The constraint builder -/

theorem connectN2_eq_specNB (x1 x2 : Vec3) (i k : ℕ) (hi : i < 6) (hk : k < 6) :
    connectN2 (Vec3.sub x1 x2) i k
      = specNB (x1.x - x2.x) (x1.y - x2.y) (x1.z - x2.z) i k := by
  interval_cases i <;> interval_cases k <;> norm_num [connectN2, specNB, Vec3.sub]

/-- **C6.** For a rigid link between distinct nodes `A = node1` (coordinate
`x₁`) and `B = node2` (coordinate `x₂`) whose DOF blocks lie inside the
matrix, the six emitted rows of `B` carry the 6×6 identity at `A`'s DOF
block, the matrix `N_B = -I₆` plus the listed moment-arm entries (for
`Δ = x₁ - x₂`) at `B`'s DOF block, and zeros everywhere else. -/
theorem connect_rigid_link_rows (node1 node2 : ℕ) (x1 x2 : Vec3) (ndof : ℕ)
    (hne : node1 ≠ node2) (hr1 : 6 * node1 + 6 ≤ ndof) (hr2 : 6 * node2 + 6 ≤ ndof) :
    (∀ i k : ℕ, i < 6 → k < 6 →
      connectB node1 node2 x1 x2 ndof i (6 * node1 + k) = (if i = k then 1 else 0)
      ∧ connectB node1 node2 x1 x2 ndof i (6 * node2 + k)
          = specNB (x1.x - x2.x) (x1.y - x2.y) (x1.z - x2.z) i k)
    ∧ (∀ i j : ℕ, i < 6 → j < ndof →
        ¬ (6 * node1 ≤ j ∧ j < 6 * node1 + 6) → ¬ (6 * node2 ≤ j ∧ j < 6 * node2 + 6) →
        connectB node1 node2 x1 x2 ndof i j = 0) := by
  constructor
  · intro i k hi hk
    constructor
    · unfold connectB
      rw [if_pos (by omega), if_neg (show ¬ (6 * node2 ≤ 6 * node1 + k
          ∧ 6 * node1 + k < 6 * node2 + 6) by omega),
        if_pos (show 6 * node1 ≤ 6 * node1 + k ∧ 6 * node1 + k < 6 * node1 + 6 by omega),
        show 6 * node1 + k - 6 * node1 = k by omega]
    · unfold connectB
      rw [if_pos (by omega),
        if_pos (show 6 * node2 ≤ 6 * node2 + k ∧ 6 * node2 + k < 6 * node2 + 6 by omega),
        show 6 * node2 + k - 6 * node2 = k by omega]
      exact connectN2_eq_specNB x1 x2 i k hi hk
  · intro i j _ hj hn1 hn2
    unfold connectB
    rw [if_pos hj, if_neg hn2, if_neg hn1]

/-- Witness for C6: nodes 0 and 2 in an 18-DOF system, `x₁ = (1,2,3)`,
`x₂ = (0,0,1)`. -/
theorem connect_rigid_link_rows_witness :
    connectB 0 2 ⟨1, 2, 3⟩ ⟨0, 0, 1⟩ 18 0 (6 * 0 + 0) = (if (0 : ℕ) = 0 then 1 else 0)
    ∧ connectB 0 2 ⟨1, 2, 3⟩ ⟨0, 0, 1⟩ 18 0 (6 * 2 + 4)
        = specNB ((1 : ℚ) - 0) ((2 : ℚ) - 0) ((3 : ℚ) - 1) 0 4
    ∧ connectB 0 2 ⟨1, 2, 3⟩ ⟨0, 0, 1⟩ 18 0 7 = 0 :=
  have h := connect_rigid_link_rows 0 2 ⟨1, 2, 3⟩ ⟨0, 0, 1⟩ 18 (by omega)
    (by omega) (by omega)
  ⟨(h.1 0 0 (by omega) (by omega)).1, (h.1 0 4 (by omega) (by omega)).2,
    h.2 0 7 (by omega) (by omega) (by omega) (by omega)⟩

/-- **C8 (code bug).** The schema (`framat/_model.py`, `schema_fix`) allows
the rotation symbols `thx, thy, thz`, but the constraint builder's `pos_dict`
only knows `tx, ty, tz`: on any schema-allowed constraint using `thx/thy/thz`
the builder fails (`KeyError`) instead of emitting a unit row, while the
translation symbols do produce the claimed rows. -/
theorem fix_dof_thx_rejected :
    fix_dof 0 12 ["thx"] = .error ()
    ∧ fix_dof 0 12 ["thy"] = .error ()
    ∧ fix_dof 0 12 ["thz"] = .error ()
    ∧ fix_dof 0 12 ["ux", "uy", "uz"] = .ok [bcRow 0 12 0, bcRow 0 12 1, bcRow 0 12 2]
    ∧ fix_dof 1 18 ["all"] = .ok (bcAllBlock 1 18) :=
  ⟨rfl, rfl, rfl, rfl, rfl⟩

/-- **C10 (counterexample).** The list `["thx", "all"]` contains `'all'`, yet
the builder does not return the identity-block matrix: it fails on the
schema-allowed symbol `thx` before reaching `'all'`. -/
theorem fix_dof_all_claim_counterex :
    ¬ (fix_dof 0 12 ["thx", "all"] = .ok (bcAllBlock 0 12)) := by
  intro h
  have he : fix_dof 0 12 ["thx", "all"] = .error () := rfl
  rw [he] at h
  exact Except.noConfusion h

theorem fix_dof_loop_pre_all (node ndof : ℕ) (post : List String) :
    ∀ (pre : List String) (B : List (List ℚ)),
      (∀ c ∈ pre, (pos_dict c).isSome) →
      fix_dof_loop node ndof (pre ++ "all" :: post) B = .ok (bcAllBlock node ndof)
  | [], B, _ => by simp [fix_dof_loop]
  | c :: pre, B, hv => by
    rw [List.cons_append]
    show (if c = "all" then _ else _) = _
    by_cases hc : c = "all"
    · rw [if_pos hc]
    · rw [if_neg hc]
      obtain ⟨pos, hpos⟩ := Option.isSome_iff_exists.mp (hv c (by simp))
      show (match pos_dict c with
        | none => Except.error ()
        | some pos => fix_dof_loop node ndof (pre ++ "all" :: post)
            (B ++ [bcRow node ndof pos])) = _
      rw [hpos]
      exact fix_dof_loop_pre_all node ndof post pre _
        (fun d hd => hv d (by simp [hd]))

/-- **C10 (amended).** For every node number and every constraint list of the
form `pre ++ ['all'] ++ post` in which every symbol of `pre` is known to the
builder (`ux, uy, uz, tx, ty, tz`), `fix_dof` returns exactly the 6×`ndof`
matrix whose only non-zero entries are the 6×6 identity block at the node's
DOF columns; the symbols of `pre` contribute no row (rows accumulated before
`'all'` are discarded) and the symbols of `post` are never read. -/
theorem fix_dof_all_discards (node ndof : ℕ) (cons pre post : List String)
    (hsplit : cons = pre ++ "all" :: post)
    (hpre : ∀ c ∈ pre, (pos_dict c).isSome) :
    fix_dof node ndof cons = .ok (bcAllBlock node ndof)
    ∧ (∀ r j : ℕ, r < 6 → j < ndof →
        ((bcAllBlock node ndof).getD r []).getD j 0
          = (if j = 6 * node + r then 1 else 0)) := by
  constructor
  · rw [hsplit]
    exact fix_dof_loop_pre_all node ndof post pre [] hpre
  · intro r j hr hj
    have hrow : (bcAllBlock node ndof).getD r [] = bcRow node ndof r := by
      simp [bcAllBlock, List.getD, List.getElem?_map, List.getElem?_range, hr]
    rw [hrow]
    simp [bcRow, List.getD, List.getElem?_map, List.getElem?_range, hj]

/-- Witness for C10: node 1 in a 24-DOF system with the list
`["uz", "all", "whatever"]`. -/
theorem fix_dof_all_discards_witness :
    fix_dof 1 24 ["uz", "all", "whatever"] = .ok (bcAllBlock 1 24)
    ∧ ((bcAllBlock 1 24).getD 2 []).getD 8 0 = (if (8 : ℕ) = 6 * 1 + 2 then 1 else 0) :=
  have h := fix_dof_all_discards 1 24 ["uz", "all", "whatever"] ["uz"] ["whatever"]
    rfl (by intro c hc; simp at hc; subst hc; rfl)
  ⟨h.1, h.2 2 8 (by omega) (by omega)⟩

/-! ## The static solve -/

theorem matInvQ_eq_inv {k : Type} [Fintype k] [DecidableEq k] (A : Matrix k k ℚ) :
    matInvQ A = A⁻¹ := by
  rw [matInvQ, Matrix.inv_def, Ring.inverse_eq_inv]

/-- **C1.** When the augmented matrix `[[K, Bᵀ], [B, 0]]` is nonsingular, the
vectors `U` and `F_react` stored by `static_load_analysis` satisfy the
saddle-point system with right-hand side `[F; 0]` — `K·U + Bᵀ·F_react = F` and
`B·U = 0` — and they are the first `n` and the remaining `m` entries of the
(unique) solution of that system. -/
theorem static_load_analysis_solves_saddle {n m : ℕ} (K : Matrix (Fin n) (Fin n) ℚ)
    (B : Matrix (Fin m) (Fin n) ℚ) (F : Fin n → ℚ)
    (hdet : IsUnit (Matrix.fromBlocks K Bᵀ B (0 : Matrix (Fin m) (Fin m) ℚ)).det) :
    K.mulVec (static_load_analysis K B F).1
        + Bᵀ.mulVec (static_load_analysis K B F).2 = F
    ∧ B.mulVec (static_load_analysis K B F).1 = 0
    ∧ ∀ s : Fin n ⊕ Fin m → ℚ,
        (Matrix.fromBlocks K Bᵀ B (0 : Matrix (Fin m) (Fin m) ℚ)).mulVec s
          = Sum.elim F (fun _ => 0) →
        (∀ i, (static_load_analysis K B F).1 i = s (Sum.inl i))
        ∧ (∀ j, (static_load_analysis K B F).2 j = s (Sum.inr j)) := by
  have hsolve :
      (Matrix.fromBlocks K Bᵀ B (0 : Matrix (Fin m) (Fin m) ℚ)).mulVec
        ((matInvQ (Matrix.fromBlocks K Bᵀ B (0 : Matrix (Fin m) (Fin m) ℚ))).mulVec
          (Sum.elim F (fun _ => 0)))
        = Sum.elim F (fun _ => 0) := by
    rw [matInvQ_eq_inv, Matrix.mulVec_mulVec, Matrix.mul_nonsing_inv _ hdet,
      Matrix.one_mulVec]
  have helim : Sum.elim ((static_load_analysis K B F).1) ((static_load_analysis K B F).2)
      = (matInvQ (Matrix.fromBlocks K Bᵀ B (0 : Matrix (Fin m) (Fin m) ℚ))).mulVec
          (Sum.elim F (fun _ => 0)) := by
    funext z
    cases z <;> rfl
  have hblocks := hsolve
  rw [← helim, Matrix.fromBlocks_mulVec] at hblocks
  refine ⟨?_, ?_, ?_⟩
  · funext i
    have h := congrFun hblocks (Sum.inl i)
    simpa using h
  · funext j
    have h := congrFun hblocks (Sum.inr j)
    simpa using h
  · intro s hs
    have hsu : s = (matInvQ (Matrix.fromBlocks K Bᵀ B
        (0 : Matrix (Fin m) (Fin m) ℚ))).mulVec (Sum.elim F (fun _ => 0)) := by
      rw [matInvQ_eq_inv, ← hs, Matrix.mulVec_mulVec, Matrix.nonsing_inv_mul _ hdet,
        Matrix.one_mulVec]
    constructor
    · intro i
      rw [hsu]
      rfl
    · intro j
      rw [hsu]
      rfl

/-- Witness for C1: the 1×1 stiffness `K = [2]` with the single constraint
row `B = [1]` and load `F = [3]`; the augmented matrix `[[2, 1], [1, 0]]` has
the explicit left inverse `[[0, 1], [1, -2]]`. -/
theorem static_load_analysis_solves_saddle_witness :
    (!![(2 : ℚ)]).mulVec (static_load_analysis !![(2 : ℚ)] !![(1 : ℚ)] ![3]).1
        + (!![(1 : ℚ)])ᵀ.mulVec (static_load_analysis !![(2 : ℚ)] !![(1 : ℚ)] ![3]).2
      = ![3]
    ∧ (!![(1 : ℚ)]).mulVec (static_load_analysis !![(2 : ℚ)] !![(1 : ℚ)] ![3]).1 = 0 :=
  have hdet : IsUnit (Matrix.fromBlocks !![(2 : ℚ)] (!![(1 : ℚ)])ᵀ !![(1 : ℚ)]
      (0 : Matrix (Fin 1) (Fin 1) ℚ)).det :=
    Matrix.isUnit_det_of_left_inverse
      (B := Matrix.fromBlocks !![(0 : ℚ)] !![(1 : ℚ)] !![(1 : ℚ)] !![(-2 : ℚ)])
      (by
        ext z w
        rcases z with i | i <;> rcases w with j | j <;>
          · fin_cases i
            fin_cases j
            simp [Matrix.mul_apply, Fintype.sum_sum_type, Matrix.fromBlocks,
              Matrix.one_apply])
  have h := static_load_analysis_solves_saddle !![(2 : ℚ)] !![(1 : ℚ)] ![3] hdet
  ⟨h.1, h.2.1⟩

/-! ## The polyline mesher -/

theorem chainSegs_length : ∀ sup_points : List (String × Vec3),
    (chainSegs sup_points).length = sup_points.length - 1
  | [] => rfl
  | [_] => rfl
  | a :: b :: rest => by
    simp only [chainSegs, List.length_cons]
    rw [chainSegs_length (b :: rest)]
    simp

theorem chainSplit_zero (len : Vec3 → ℚ) (n : ℕ) (total : ℚ) :
    ∀ segs : List Seg, (∃ s ∈ segs, len (segDir s) = 0) →
      chainSplit len n total segs = .error .zeroSegment := by
  intro segs
  induction segs with
  | nil =>
    rintro ⟨s, hs, -⟩
    exact absurd hs (List.not_mem_nil s)
  | cons s rest ih =>
    rintro ⟨t, ht, htz⟩
    simp only [chainSplit]
    by_cases h0 : (⌈(n : ℚ) * (len (segDir s) / total)⌉).toNat = 0
    · rw [if_pos h0]
    · rw [if_neg h0]
      rcases List.mem_cons.mp ht with hts | htr
      · subst hts
        rw [htz, zero_div, mul_zero, Int.ceil_zero, Int.toNat_zero] at h0
        exact absurd rfl h0
      · rw [ih ⟨t, htr, htz⟩]

theorem chainSplit_ok (len : Vec3 → ℚ) (n : ℕ) (total : ℚ) (hn : 1 ≤ n)
    (htotal : 0 < total) :
    ∀ segs : List Seg, (∀ s ∈ segs, 0 < len (segDir s)) →
      ∃ splits, chainSplit len n total segs = .ok splits
        ∧ splits.length = segs.length := by
  intro segs
  induction segs with
  | nil => exact fun _ => ⟨[], rfl, rfl⟩
  | cons s rest ih =>
    intro hpos
    obtain ⟨tail, htail, hlen⟩ := ih fun t ht => hpos t (List.mem_cons_of_mem _ ht)
    have hnq : (0 : ℚ) < n := by
      have h1 : 0 < n := hn
      exact_mod_cast h1
    have hceil : 0 < ⌈(n : ℚ) * (len (segDir s) / total)⌉ :=
      Int.ceil_pos.mpr (mul_pos hnq (div_pos (hpos s (List.mem_cons_self s rest)) htotal))
    have h0 : ¬ (⌈(n : ℚ) * (len (segDir s) / total)⌉).toNat = 0 := by
      rw [Int.toNat_eq_zero]
      omega
    refine ⟨(s, splitIntoPoints s (⌈(n : ℚ) * (len (segDir s) / total)⌉).toNat) :: tail,
      ?_, ?_⟩
    · simp only [chainSplit]
      rw [if_neg h0, htail]
    · simp [hlen]

theorem chainIterPoints_ok (len : Vec3 → ℚ) (total : ℚ) :
    ∀ (splits : List (Seg × List MPoint)) (curr : ℚ), splits ≠ [] →
      ∃ pts, chainIterPoints len total curr splits = .ok pts
  | [], _, h => absurd rfl h
  | [(s, pts)], curr, _ => ⟨etaPoints len total curr s pts, rfl⟩
  | (s, pts) :: x :: xs, curr, _ => by
    obtain ⟨tail, htail⟩ :=
      chainIterPoints_ok len total (x :: xs) (curr + len (segDir s)) (by simp)
    refine ⟨etaPoints len total curr s pts.dropLast ++ tail, ?_⟩
    show (match chainIterPoints len total (curr + len (segDir s)) (x :: xs) with
      | .error e => (.error e : Except MeshError (List MPoint))
      | .ok tl => .ok (etaPoints len total curr s pts.dropLast ++ tl)) = _
    rw [htail]

/-- **C7.** The polyline mesher fails with `insufficientSupport` on fewer than
two support points, fails with `zeroSegment` as soon as any segment between
two consecutive named nodes has length zero, and succeeds whenever there are
at least two support points and every segment length is positive (for any
requested element count `n ≥ 1`). -/
theorem polygonal_chain_failure_modes (len : Vec3 → ℚ)
    (sup_points : List (String × Vec3)) (n : ℕ) (hn : 1 ≤ n) :
    (sup_points.length < 2 →
      polygonal_chain len sup_points n = .error .insufficientSupport)
    ∧ ((∃ s ∈ chainSegs sup_points, len (segDir s) = 0) →
      polygonal_chain len sup_points n = .error .zeroSegment)
    ∧ (2 ≤ sup_points.length → (∀ s ∈ chainSegs sup_points, 0 < len (segDir s)) →
      ∃ pts, polygonal_chain len sup_points n = .ok pts) := by
  refine ⟨?_, ?_, ?_⟩
  · intro h
    rcases sup_points with - | ⟨a, - | ⟨b, rest⟩⟩
    · rfl
    · rfl
    · refine absurd h ?_
      simp only [List.length_cons, not_lt]
      omega
  · intro hz
    simp only [polygonal_chain]
    rw [chainSplit_zero len n (chainTotal len sup_points) (chainSegs sup_points) hz]
  · intro hlen2 hpos
    have hsegs1 : 1 ≤ (chainSegs sup_points).length := by
      rw [chainSegs_length]
      omega
    have hne : chainSegs sup_points ≠ [] := by
      intro h
      rw [h] at hsegs1
      exact absurd hsegs1 (by simp)
    have htotal : 0 < chainTotal len sup_points := by
      refine List.sum_pos _ ?_ ?_
      · intro a ha
        obtain ⟨s, hs, rfl⟩ := List.mem_map.mp ha
        exact hpos s hs
      · intro h
        exact hne (List.map_eq_nil_iff.mp h)
    obtain ⟨splits, hsp, hsplen⟩ :=
      chainSplit_ok len n (chainTotal len sup_points) hn htotal (chainSegs sup_points) hpos
    have hspne : splits ≠ [] := by
      intro h
      rw [h] at hsplen
      rw [chainSegs_length] at hsplen
      simp at hsplen
      omega
    obtain ⟨pts, hpts⟩ := chainIterPoints_ok len (chainTotal len sup_points) splits 0 hspne
    refine ⟨pts, ?_⟩
    simp only [polygonal_chain]
    rw [hsp]
    exact hpts

/-- Witness for C7: a one-point chain, a chain with two coinciding support
points, and a straight two-point chain, all with the 1-norm as the vector
norm. -/
theorem polygonal_chain_failure_modes_witness :
    polygonal_chain norm1 [("a", ⟨0, 0, 0⟩)] 1 = .error .insufficientSupport
    ∧ polygonal_chain norm1 [("a", ⟨1, 2, 3⟩), ("b", ⟨1, 2, 3⟩)] 1 = .error .zeroSegment
    ∧ ∃ pts, polygonal_chain norm1 [("a", ⟨0, 0, 0⟩), ("b", ⟨1, 0, 0⟩)] 2 = .ok pts :=
  ⟨(polygonal_chain_failure_modes norm1 [("a", ⟨0, 0, 0⟩)] 1 (by omega)).1 (by simp),
   (polygonal_chain_failure_modes norm1 [("a", ⟨1, 2, 3⟩), ("b", ⟨1, 2, 3⟩)] 1
      (by omega)).2.1
     ⟨mkSeg ("a", ⟨1, 2, 3⟩) ("b", ⟨1, 2, 3⟩), by simp [chainSegs],
      by norm_num [norm1, segDir, mkSeg, Vec3.sub]⟩,
   (polygonal_chain_failure_modes norm1 [("a", ⟨0, 0, 0⟩), ("b", ⟨1, 0, 0⟩)] 2
      (by omega)).2.2 (by simp)
     (by
       intro s hs
       simp only [chainSegs, List.mem_singleton] at hs
       subst hs
       norm_num [norm1, segDir, mkSeg, Vec3.sub])⟩

/-! ## The abstract beam mesh DOF counters -/

theorem map_getD_range {α : Type} (l : List α) (d : α) :
    (List.range l.length).map (fun i => l.getD i d) = l := by
  induction l with
  | nil => simp
  | cons a t ih =>
    rw [List.length_cons, List.range_succ_eq_map, List.map_cons, List.map_map]
    refine congrArg₂ _ rfl ?_
    have hfun : ((fun i => (a :: t).getD i d) ∘ Nat.succ) = fun i => t.getD i d := by
      funext i
      simp [Function.comp]
    rw [hfun]
    exact ih

theorem sum_map_mul_six {α : Type} (l : List α) (f : α → ℕ) :
    (l.map fun x => f x * 6).sum = (l.map f).sum * 6 := by
  induction l with
  | nil => rfl
  | cons a t ih =>
    simp only [List.map_cons, List.sum_cons, ih]
    ring

/-- **C9.** For every abstract beam mesh and every beam index `i`,
`ndofs_beam i = 6 · (nelem_beam i + 1)`, and the `ndofs_beam` values summed
over all beams give `ndofs`, the total DOF count of the mesh. -/
theorem mesh_ndofs_beam_total {α : Type} (beams : List (List α)) (i : ℕ)
    (hi : i < beams.length) :
    ndofs_beam beams i = 6 * (nelem_beam beams i + 1)
    ∧ ((List.range beams.length).map (ndofs_beam beams)).sum = mesh_ndofs beams := by
  constructor
  · rw [ndofs_beam, nnodes_beam, Nat.mul_comm]
  · have hmap : (List.range beams.length).map (ndofs_beam beams)
        = beams.map fun b => (b.length + 1) * 6 := by
      have h1 : (List.range beams.length).map (ndofs_beam beams)
          = ((List.range beams.length).map (fun i => beams.getD i [])).map
              (fun b => (b.length + 1) * 6) := by
        rw [List.map_map]
        rfl
      rw [h1, map_getD_range]
    rw [hmap, mesh_ndofs, mesh_nnodes]
    exact sum_map_mul_six beams fun b => b.length + 1

/-- Witness for C9 at the two-beam mesh `[[e, e], [e]]`. -/
theorem mesh_ndofs_beam_total_witness :
    ndofs_beam [[0, 1], [2]] 0 = 6 * (nelem_beam [[0, 1], [2]] 0 + 1)
    ∧ ((List.range ([[0, 1], [2]] : List (List ℕ)).length).map
        (ndofs_beam [[0, 1], [2]])).sum = mesh_ndofs [[0, 1], [2]] :=
  mesh_ndofs_beam_total [[0, 1], [2]] 0 (by decide)

end Framat
